import Mathlib

/-!
Shallow embedding of the warpclip relay daemon (Go sources under
internal/config, internal/log and internal/server), together with proofs
of the specification claims.

Modelling conventions:
* Go strings are Lean `String`; byte payloads are `List Nat`.
* Machine integers (`int`, `int64`) are `Int`.
* Fallible Go calls return `Except`/`Option`; a Go runtime panic is a
  `none` outcome.
* The process environment is a function `String → String` where the empty
  string means "unset", exactly as `os.Getenv` reports it.
* `strconv.Atoi` / `strconv.ParseInt` are modelled by `String.toInt?`.
* The file system, where a claim needs it, is a partial map from path to
  (content, permission bits).
-/

namespace Warpclip

/-! ## Configuration resolver (internal/config/config.go) -/

/-- Mirrors `config.Config`. -/
structure Config where
  port : Int
  bindAddress : String
  logFile : String
  debugFile : String
  outLogFile : String
  errorLogFile : String
  pidFile : String
  lastFile : String
  maxDataSize : Int
  deriving Repr, DecidableEq

/-- The default configuration literal built at the top of `config.Load`.
`filepath.Join homeDir x` is modelled as `homeDir ++ "/" ++ x`. -/
def defaultConfig (homeDir : String) : Config :=
  { port := 8888
    bindAddress := "127.0.0.1"
    logFile := homeDir ++ "/.warpclip.log"
    debugFile := homeDir ++ "/.warpclip.debug.log"
    outLogFile := homeDir ++ "/.warpclip.out.log"
    errorLogFile := homeDir ++ "/.warpclip.error.log"
    pidFile := homeDir ++ "/.warpclip.pid"
    lastFile := homeDir ++ "/.warpclip.last"
    maxDataSize := 1048576 }

/-- Mirrors `config.expandPath`: a leading `~/` is replaced by the home
directory. -/
def expandPath (path : String) (homeDir : String) : String :=
  if path.startsWith "~/" then homeDir ++ "/" ++ (path.drop 2) else path

/-- The `WARPCLIP_LOCAL_PORT` override block of `config.Load`. -/
def applyPortOverride (env : String → String) (cfg : Config) :
    Except String Config :=
  let portStr := env "WARPCLIP_LOCAL_PORT"
  if portStr ≠ "" then
    match portStr.toInt? with
    | none => .error "invalid WARPCLIP_LOCAL_PORT value"
    | some port =>
      if port < 1024 ∨ port > 65535 then
        .error "WARPCLIP_LOCAL_PORT must be between 1024 and 65535"
      else
        .ok { cfg with port := port }
  else
    .ok cfg

/-- The four path-override blocks of `config.Load` (log, debug, out and
error log files; the PID and last-activity paths have no override). -/
def applyPathOverrides (env : String → String) (homeDir : String)
    (cfg : Config) : Config :=
  let cfg :=
    let v := env "WARPCLIP_LOG_FILE"
    if v ≠ "" then { cfg with logFile := expandPath v homeDir } else cfg
  let cfg :=
    let v := env "WARPCLIP_DEBUG_FILE"
    if v ≠ "" then { cfg with debugFile := expandPath v homeDir } else cfg
  let cfg :=
    let v := env "WARPCLIP_OUT_LOG"
    if v ≠ "" then { cfg with outLogFile := expandPath v homeDir } else cfg
  let cfg :=
    let v := env "WARPCLIP_ERROR_LOG"
    if v ≠ "" then { cfg with errorLogFile := expandPath v homeDir } else cfg
  cfg

/-- The `WARPCLIP_MAX_DATA_SIZE` override block of `config.Load`. -/
def applyMaxSizeOverride (env : String → String) (cfg : Config) :
    Except String Config :=
  let sizeStr := env "WARPCLIP_MAX_DATA_SIZE"
  if sizeStr ≠ "" then
    match sizeStr.toInt? with
    | none => .error "invalid WARPCLIP_MAX_DATA_SIZE value"
    | some maxDataSize =>
      if maxDataSize < 1024 ∨ maxDataSize > 104857600 then
        .error "WARPCLIP_MAX_DATA_SIZE must be between 1024 and 104857600 bytes"
      else
        .ok { cfg with maxDataSize := maxDataSize }
  else
    .ok cfg

/-- Mirrors `config.validateConfig`.  The directory-creation side effect at
its end only touches the file system and cannot fail in this model. -/
def validateConfig (cfg : Config) : Except String Unit :=
  if cfg.port < 1024 ∨ cfg.port > 65535 then
    .error "port must be between 1024 and 65535"
  else if cfg.bindAddress ≠ "127.0.0.1" ∧ cfg.bindAddress ≠ "localhost" then
    .error "bind address must be localhost for security"
  else if cfg.maxDataSize < 1024 then
    .error "maximum data size must be at least 1024 bytes"
  else
    .ok ()

/-- Mirrors `config.Load`: defaults, then environment overrides in source
order, then validation.  `homeDir` stands for `os.UserHomeDir()`. -/
def Load (env : String → String) (homeDir : String) : Except String Config := do
  let cfg := defaultConfig homeDir
  let cfg ← applyPortOverride env cfg
  let cfg := applyPathOverrides env homeDir cfg
  let cfg ← applyMaxSizeOverride env cfg
  match validateConfig cfg with
  | .error e => .error e
  | .ok () => .ok cfg

/-! ## Log sanitization (internal/log/log.go, sanitizeInput) -/

/-- Mirrors `log.sanitizeInput`: iterate over the runes of the input,
keeping a rune when `r >= 32 && r != 127 || r == TAB || r == NL || r == CR`
and appending `"?"` otherwise. -/
def sanitizeInput (input : String) : String :=
  input.data.foldl
    (fun clean r =>
      if (32 ≤ r.toNat ∧ r.toNat ≠ 127) ∨ r = '\t' ∨ r = '\n' ∨ r = '\r' then
        clean ++ String.singleton r
      else
        clean ++ "?")
    ""

/-- Spec-side notion: a control character in the ASCII sense (code point
below 32 or equal to 127). -/
def isAsciiControl (c : Char) : Bool :=
  c.toNat < 32 || c.toNat == 127

/-- Spec-side notion: the three control characters the spec allows through
(tab, newline, carriage return). -/
def isLogAllowed (c : Char) : Bool :=
  c == '\t' || c == '\n' || c == '\r'

/-! ## Structured logger (internal/log/log.go) -/

/-- Mirrors `log.LogLevel`. -/
inductive LogLevel
  | DEBUG
  | INFO
  | WARNING
  | ERROR
  deriving Repr, DecidableEq

/-- Mirrors `LogLevel.String()`. -/
def LogLevel.str : LogLevel → String
  | .DEBUG => "DEBUG"
  | .INFO => "INFO"
  | .WARNING => "WARNING"
  | .ERROR => "ERROR"

/-- An open `*os.File` handle as the logger sees it: its path, the bytes
appended through it so far, and whether the underlying descriptor has gone
bad (writes, syncs and stats on it fail). -/
structure Handle where
  name : String
  content : String
  broken : Bool
  deriving Repr, DecidableEq

/-- Mirrors `log.FileLogger`.  A nil `*os.File` field is `none`; `archived`
records the timestamp-suffixed files produced by rotation. -/
structure FileLogger where
  logFile : Option Handle
  debugFile : Option Handle
  maxFileSize : Nat
  archived : List (String × String)
  deriving Repr, DecidableEq

/-- Destinations a single `log` call can write a string to. -/
inductive Dest
  | main
  | debug
  | stdErr
  deriving Repr, DecidableEq

/-- Mirrors `FileLogger.ensureLogFilesExist`.  When a handle field is nil
the Go code evaluates `l.logFile.Name()` (resp. `l.debugFile.Name()`) on a
nil `*os.File`, which dereferences a nil pointer and panics; the panic is
the `none` outcome. -/
def FileLogger.ensureLogFilesExist (l : FileLogger) : Option FileLogger :=
  match l.logFile, l.debugFile with
  | some _, some _ => some l
  | _, _ => none

/-- Mirrors one arm of `FileLogger.checkRotation`: if `Stat` succeeds (the
handle is not broken) and the size exceeds the threshold, the file is
renamed to `name.timestamp` and a fresh empty file is opened at the
original path. -/
def rotateHandle (maxFileSize : Nat) (ts : String) (h : Handle)
    (archived : List (String × String)) : Handle × List (String × String) :=
  if h.broken = false ∧ h.content.length > maxFileSize then
    (⟨h.name, "", false⟩, (h.name ++ "." ++ ts, h.content) :: archived)
  else
    (h, archived)

/-- Mirrors `FileLogger.checkRotation` (main file first, then debug). -/
def FileLogger.checkRotation (l : FileLogger) (ts : String) : FileLogger :=
  let l :=
    match l.logFile with
    | some h =>
      let (h, archived) := rotateHandle l.maxFileSize ts h l.archived
      { l with logFile := some h, archived := archived }
    | none => l
  match l.debugFile with
  | some h =>
    let (h, archived) := rotateHandle l.maxFileSize ts h l.archived
    { l with debugFile := some h, archived := archived }
  | none => l

/-- A `WriteString` on a handle: fails (content unchanged) when the handle
is broken, otherwise appends.  The `Bool` is the error flag. -/
def Handle.writeString (h : Handle) (s : String) : Handle × Bool :=
  if h.broken then (h, true) else ({ h with content := h.content ++ s }, false)

/-- Mirrors `FileLogger.log` (the timestamp is passed in).  Returns the new
logger state and the list of successful writes this call performed, keyed
by destination; `none` is the nil-pointer panic raised inside
`ensureLogFilesExist` when a handle is nil. -/
def FileLogger.log (l : FileLogger) (level : LogLevel) (message : String)
    (ts : String) : Option (FileLogger × List (Dest × String)) :=
  let logLine := "[" ++ ts ++ "] [" ++ level.str ++ "] " ++ message ++ "\n"
  match l.ensureLogFilesExist with
  | none => none
  | some l =>
    let l := l.checkRotation ts
    if level = .DEBUG then
      match l.debugFile with
      | some h =>
        let (h, errFlag) := h.writeString logLine
        if errFlag then
          some (l, [(.stdErr, "Error writing to debug log")])
        else
          some ({ l with debugFile := some h }, [(.debug, logLine)])
      | none => some (l, [])
    else
      let (l, writes) :=
        match l.logFile with
        | some h =>
          let (h, errFlag) := h.writeString logLine
          if errFlag then
            (l, [((Dest.stdErr), "Error writing to log")])
          else
            ({ l with logFile := some h }, [((Dest.main), logLine)])
        | none => (l, [])
      if level = .ERROR then
        some (l, writes ++ [(.stdErr, logLine)])
      else
        some (l, writes)

/-- File operations `Close` can perform. -/
inductive FileOp
  | syncOp (name : String)
  | closeOp (name : String)
  deriving Repr, DecidableEq

/-- Mirrors `FileLogger.Close`: sync and close each non-nil handle (both
fail on a broken handle, and their errors are collected), then set the
field to nil; returns the error (if any errors were collected) and the
file operations attempted. -/
def FileLogger.close (l : FileLogger) :
    FileLogger × Option String × List FileOp :=
  let (errs₁, ops₁) :=
    match l.logFile with
    | some h =>
      ((if h.broken then
          ["failed to sync log file", "failed to close log file"]
        else []),
       [FileOp.syncOp h.name, FileOp.closeOp h.name])
    | none => ([], [])
  let (errs₂, ops₂) :=
    match l.debugFile with
    | some h =>
      ((if h.broken then
          ["failed to sync debug file", "failed to close debug file"]
        else []),
       [FileOp.syncOp h.name, FileOp.closeOp h.name])
    | none => ([], [])
  let l := { l with logFile := none, debugFile := none }
  let errs := errs₁ ++ errs₂
  (l, (if errs.length > 0 then some "errors closing logger" else none),
    ops₁ ++ ops₂)

/-! ## Relay server (internal/server, one-byte-classifier version) -/

/-- The log messages the connection handler and clipboard sink emit, one
constructor per `fmt.Sprintf` format string, carrying exactly the format
arguments (addresses and error texts are strings; counts are numbers). -/
inductive Msg
  | newConnection (addr : String)
  | deadlineFailed (e : String)
  | controlConnection (addr : String)
  | readError (e : String)
  | copyReadError (e : String)
  | emptyData
  | exceededMax (limit : Int)
  | retryingClipboard (attempt total : Nat)
  | clipboardOpFailed (e : String)
  | failedCopy (attempts : Nat) (last : Option String)
  | activityUpdateFailed (e : String)
  | copiedBytes (n : Nat)
  deriving Repr, DecidableEq

/-- The numeric format arguments a message carries (used to ask whether a
log line mentions a given attempt number). -/
def Msg.nums : Msg → List Nat
  | .exceededMax m => [m.toNat]
  | .retryingClipboard a t => [a, t]
  | .failedCopy a _ => [a]
  | .copiedBytes n => [n]
  | _ => []

/-- A leveled log entry as the handler produces it. -/
inductive LogEntry
  | info (m : Msg)
  | warning (m : Msg)
  | err (m : Msg)
  deriving Repr, DecidableEq

/-- `true` exactly on WARNING entries. -/
def LogEntry.isWarning : LogEntry → Bool
  | .warning _ => true
  | _ => false

/-- `true` exactly on INFO entries. -/
def LogEntry.isInfo : LogEntry → Bool
  | .info _ => true
  | _ => false

/-- Observable events of `copyToClipboard`: WARNING log lines and the
`time.Sleep` calls (in milliseconds). -/
inductive ClipEvent
  | warn (m : Msg)
  | sleepMs (ms : Nat)
  deriving Repr, DecidableEq

/-- The aggregated error `fmt.Errorf("failed after %d attempts: %w",
maxRetries, lastErr)`: it carries the attempt count and wraps the last
underlying failure (the `Option` mirrors the `var lastErr error`
variable). -/
structure AggErr where
  attempts : Nat
  last : Option String
  deriving Repr, DecidableEq

/-- `maxRetries` in `Server.copyToClipboard`. -/
def maxRetries : Nat := 3

/-- The retry loop of `Server.copyToClipboard`.  `attemptErr i` is the
outcome of the `i`-th call to `copyToClipboardOnce` (`none` = success);
`fuel` counts the remaining loop iterations, `attempt` is the loop index
and `lastErr` the accumulator.  Returns the emitted events and the final
error. -/
def clipGo (attemptErr : Nat → Option String) :
    Nat → Nat → Option String → List ClipEvent × Option AggErr
  | 0, _, lastErr => ([], some ⟨maxRetries, lastErr⟩)
  | fuel + 1, attempt, _lastErr =>
    let pre :=
      if attempt > 0 then
        [ClipEvent.warn (.retryingClipboard (attempt + 1) maxRetries),
         ClipEvent.sleepMs (100 * attempt)]
      else []
    match attemptErr attempt with
    | some e =>
      let r := clipGo attemptErr fuel (attempt + 1) (some e)
      (pre ++ [ClipEvent.warn (.clipboardOpFailed e)] ++ r.1, r.2)
    | none => (pre, none)

/-- Mirrors `Server.copyToClipboard`, parameterized by the per-attempt
outcomes of `copyToClipboardOnce`. -/
def copyToClipboard (attemptErr : Nat → Option String) :
    List ClipEvent × Option AggErr :=
  clipGo attemptErr maxRetries 0 none

/-- A clipboard event seen as a log entry (sleeps produce none). -/
def ClipEvent.toLog? : ClipEvent → Option LogEntry
  | .warn m => some (.warning m)
  | .sleepMs _ => none

/-- A freshly accepted connection as the handler observes it: the byte
stream the sender writes before closing (then a clean end-of-stream), plus
two fault switches: `firstReadErr` makes the first `Read` return `(0, e)`
with a non-EOF error `e`, `copyErr` makes the later `io.Copy` fail. -/
structure Conn where
  addr : String
  payload : List Nat
  firstReadErr : Option String
  copyErr : Option String
  deriving Repr, DecidableEq

/-- What one `handleConnection` run produced: its log, the bytes handed to
`copyToClipboard` (if it was invoked) and the byte count written to the
last-activity file (if the update happened). -/
structure HandleResult where
  log : List LogEntry
  sink : Option (List Nat)
  activity : Option Nat
  deriving Repr, DecidableEq

/-- Mirrors `Server.handleConnection` (the one-byte-classifier version):
read one byte; `err == io.EOF || n == 0` classifies the connection as a
control connection; otherwise the rest is read through
`io.LimitReader(conn, MaxDataSize-1)` and appended to the first byte, a
truncation warning is logged when the total reaches `MaxDataSize`, the
data goes to `copyToClipboard` and on success the last-activity file is
updated (`activityErr` is the outcome of that write) and the byte count is
logged.  `SetReadDeadline` is modelled as succeeding. -/
def handleConnection (maxDataSize : Int)
    (attemptErr : Nat → Option String) (activityErr : Option String)
    (conn : Conn) : HandleResult :=
  let log₀ := [LogEntry.info (.newConnection conn.addr)]
  match conn.payload with
  | [] =>
    -- first read returns (0, io.EOF)
    { log := log₀ ++ [.info (.controlConnection conn.addr)]
      sink := none, activity := none }
  | b :: rest =>
    match conn.firstReadErr with
    | some _ =>
      -- first read returns (0, e) with e ≠ io.EOF: n == 0, so the
      -- `err == io.EOF || n == 0` branch still classifies it as control
      { log := log₀ ++ [.info (.controlConnection conn.addr)]
        sink := none, activity := none }
    | none =>
      match conn.copyErr with
      | some e =>
        { log := log₀ ++ [.err (.copyReadError e)]
          sink := none, activity := none }
      | none =>
        let data := b :: rest.take (maxDataSize - 1).toNat
        if data.length = 0 then
          { log := log₀ ++ [.warning .emptyData]
            sink := none, activity := none }
        else
          let truncWarn :=
            if (data.length : Int) ≥ maxDataSize then
              [LogEntry.warning (.exceededMax maxDataSize)]
            else []
          let clip := copyToClipboard attemptErr
          let clipLog := clip.1.filterMap ClipEvent.toLog?
          match clip.2 with
          | some aggErr =>
            { log := log₀ ++ truncWarn ++ clipLog ++
                [.err (.failedCopy aggErr.attempts aggErr.last)]
              sink := some data, activity := none }
          | none =>
            let actLog :=
              match activityErr with
              | some e => [LogEntry.warning (.activityUpdateFailed e)]
              | none => []
            { log := log₀ ++ truncWarn ++ clipLog ++ actLog ++
                [.info (.copiedBytes data.length)]
              sink := some data
              activity := match activityErr with
                | some _ => none
                | none => some data.length }

/-! ## PID file management (Server.writePidFile / Server.Start) -/

/-- A file system: a map from path to (content, permission bits). -/
def Fs : Type := String → Option (String × Nat)

/-- `os.WriteFile name content perm`. -/
def fsWrite (fs : Fs) (name content : String) (perm : Nat) : Fs :=
  fun m => if m = name then some (content, perm) else fs m

/-- `os.Rename old new`. -/
def fsRename (fs : Fs) (old new : String) : Fs :=
  fun m => if m = new then fs old else if m = old then none else fs m

/-- `os.Remove name`. -/
def fsRemove (fs : Fs) (name : String) : Fs :=
  fun m => if m = name then none else fs m

/-- The content at a path. -/
def fsRead (fs : Fs) (name : String) : Option String :=
  (fs name).map (·.1)

/-- The permission bits at a path. -/
def fsPerm (fs : Fs) (name : String) : Option Nat :=
  (fs name).map (·.2)

/-- The temporary file name `fmt.Sprintf("%s.%d", s.cfg.PidFile, pid)`. -/
def pidTempName (pidFile : String) (pid : Nat) : String :=
  pidFile ++ "." ++ toString pid

/-- Mirrors `Server.writePidFile` (success path of the two OS calls):
write the pid to the pid-derived temporary name with permission 0600, then
atomically rename it over the canonical PID file path. -/
def writePidFile (pid : Nat) (pidFile : String) (fs : Fs) : Fs :=
  let tempFile := pidTempName pidFile pid
  let fs := fsWrite fs tempFile (toString pid) 0o600
  fsRename fs tempFile pidFile

/-- The PID-file effect of a graceful `Server.Start` run: `writePidFile`
after the listener opens, and the deferred `os.Remove(s.cfg.PidFile)` when
`Start` returns after draining. -/
def startThenGracefulStop (pid : Nat) (pidFile : String) (fs : Fs) : Fs :=
  fsRemove (writePidFile pid pidFile fs) pidFile

/-! ## Proofs -/

lemma sanitize_foldl (l : List Char) (acc : String) :
    (l.foldl
      (fun clean r =>
        if (32 ≤ r.toNat ∧ r.toNat ≠ 127) ∨ r = '\t' ∨ r = '\n' ∨ r = '\r' then
          clean ++ String.singleton r
        else
          clean ++ "?") acc).data
      = acc.data ++ l.map
          (fun r =>
            if (32 ≤ r.toNat ∧ r.toNat ≠ 127) ∨ r = '\t' ∨ r = '\n' ∨ r = '\r' then
              r
            else '?') := by
  induction l generalizing acc with
  | nil => simp
  | cons r l ih =>
    simp only [List.foldl_cons, List.map_cons]
    rw [ih]
    by_cases hc : (32 ≤ r.toNat ∧ r.toNat ≠ 127) ∨ r = '\t' ∨ r = '\n' ∨ r = '\r'
    · simp [hc, String.data_append]
    · simp [hc, String.data_append]

lemma keep_iff (r : Char) :
    ((32 ≤ r.toNat ∧ r.toNat ≠ 127) ∨ r = '\t' ∨ r = '\n' ∨ r = '\r')
      ↔ (isAsciiControl r = false ∨ isLogAllowed r = true) := by
  have h1 : (32 ≤ r.toNat ∧ r.toNat ≠ 127) ↔ isAsciiControl r = false := by
    simp only [isAsciiControl, Bool.or_eq_false_iff, decide_eq_false_iff_not,
      beq_eq_false_iff_ne, ne_eq]
    omega
  have h2 : (r = '\t' ∨ r = '\n' ∨ r = '\r') ↔ isLogAllowed r = true := by
    simp [isLogAllowed, or_assoc]
  rw [← h1, ← h2]

/-- C8: the sanitized message keeps every printable / tab / newline /
carriage-return character of the input unchanged and replaces every other
(ASCII-control) character, so the output contains no control character
other than tab, newline and carriage return. -/
theorem sanitizeInput_spec (input : String) :
    (sanitizeInput input).data
      = input.data.map
          (fun r => if isAsciiControl r = false ∨ isLogAllowed r = true then r else '?')
    ∧ ∀ c, c ∈ (sanitizeInput input).data →
        (isAsciiControl c = false ∨ isLogAllowed c = true) := by
  have hmap := sanitize_foldl input.data ""
  simp only [String.data] at hmap
  have hmain : (sanitizeInput input).data
      = input.data.map
          (fun r => if isAsciiControl r = false ∨ isLogAllowed r = true then r else '?') := by
    rw [sanitizeInput, hmap]
    simp only [List.nil_append]
    exact List.map_congr_left fun a _ => if_congr (keep_iff a) rfl rfl
  refine ⟨hmain, ?_⟩
  intro c hc
  rw [hmain] at hc
  rcases List.mem_map.mp hc with ⟨r, _, hr⟩
  by_cases hk : isAsciiControl r = false ∨ isLogAllowed r = true
  · rw [if_pos hk] at hr
    exact hr ▸ hk
  · rw [if_neg hk] at hr
    subst hr
    left
    rfl

/-- C8 witness: on input `"ab"` every output character is non-control or
allowed; applied at the character `a`. -/
theorem sanitizeInput_spec_witness :
    'a' ∈ (sanitizeInput "ab").data
    ∧ (isAsciiControl 'a' = false ∨ isLogAllowed 'a' = true) :=
  ⟨by decide, (sanitizeInput_spec "ab").2 'a' (by decide)⟩

/-- C9: calling `Close` again after a first close performs no file
operations, returns no error and leaves the logger state unchanged. -/
theorem close_idempotent (l : FileLogger) :
    ((FileLogger.close l).1).close = (((FileLogger.close l).1), none, []) := by
  rfl

/-- C5 (evaluating the code at the failing input): any logging call made
after `Close` hits the nil-pointer dereference inside
`ensureLogFilesExist` (the Go code calls `Name()` on the nil handle) and
panics instead of returning normally. -/
theorem log_after_close_panics (l : FileLogger) (level : LogLevel)
    (message ts : String) :
    ((FileLogger.close l).1).log level message ts = none := by
  rfl

/-- C3: `writePidFile` leaves the pid (as a string) at the canonical PID
file path with permission 0600, the temporary file has a distinct name and
is gone after the rename, and after a graceful start-then-stop run the PID
file no longer exists. -/
theorem writePidFile_roundtrip (pid : Nat) (pidFile : String) (fs : Fs) :
    fsRead (writePidFile pid pidFile fs) pidFile = some (toString pid)
    ∧ fsPerm (writePidFile pid pidFile fs) pidFile = some 0o600
    ∧ pidTempName pidFile pid ≠ pidFile
    ∧ fsRead (writePidFile pid pidFile fs) (pidTempName pidFile pid) = none
    ∧ fsRead (startThenGracefulStop pid pidFile fs) pidFile = none := by
  have hne : pidTempName pidFile pid ≠ pidFile := by
    intro h
    have hlen := congrArg String.length h
    simp only [pidTempName, String.length_append] at hlen
    rw [show ("." : String).length = 1 from rfl] at hlen
    omega
  refine ⟨?_, ?_, hne, ?_, ?_⟩
  · simp [writePidFile, fsRename, fsWrite, fsRead]
  · simp [writePidFile, fsRename, fsWrite, fsPerm]
  · simp [writePidFile, fsRename, fsWrite, fsRead, hne]
  · simp [startThenGracefulStop, fsRemove, fsRead]

lemma applyPortOverride_bindAddress (env : String → String) (cfg cfg' : Config)
    (h : applyPortOverride env cfg = .ok cfg') :
    cfg'.bindAddress = cfg.bindAddress := by
  unfold applyPortOverride at h
  dsimp only at h
  split at h
  · split at h
    · exact absurd h (by simp)
    · split at h
      · exact absurd h (by simp)
      · injection h with h
        subst h
        rfl
  · injection h with h
    subst h
    rfl

lemma applyMaxSizeOverride_bindAddress (env : String → String)
    (cfg cfg' : Config) (h : applyMaxSizeOverride env cfg = .ok cfg') :
    cfg'.bindAddress = cfg.bindAddress := by
  unfold applyMaxSizeOverride at h
  dsimp only at h
  split at h
  · split at h
    · exact absurd h (by simp)
    · split at h
      · exact absurd h (by simp)
      · injection h with h
        subst h
        rfl
  · injection h with h
    subst h
    rfl

lemma applyPathOverrides_bindAddress (env : String → String)
    (homeDir : String) (cfg : Config) :
    (applyPathOverrides env homeDir cfg).bindAddress = cfg.bindAddress := by
  unfold applyPathOverrides
  dsimp only
  split <;> split <;> split <;> split <;> rfl

lemma validateConfig_ok_bindAddress (cfg : Config)
    (h : validateConfig cfg = .ok ()) :
    cfg.bindAddress = "127.0.0.1" ∨ cfg.bindAddress = "localhost" := by
  unfold validateConfig at h
  by_cases h1 : cfg.port < 1024 ∨ cfg.port > 65535
  · simp [h1] at h
  · rw [if_neg h1] at h
    by_cases h2 : cfg.bindAddress ≠ "127.0.0.1" ∧ cfg.bindAddress ≠ "localhost"
    · simp [h2] at h
    · tauto

lemma Load_ok_bindAddress (env : String → String) (homeDir : String)
    (cfg : Config) (h : Load env homeDir = .ok cfg) :
    cfg.bindAddress = "127.0.0.1" := by
  unfold Load at h
  dsimp only at h
  cases h1 : applyPortOverride env (defaultConfig homeDir) with
  | error e =>
    rw [h1] at h
    exact absurd h (by simp [bind, Except.bind])
  | ok cfg1 =>
    rw [h1] at h
    simp only [bind, Except.bind] at h
    cases h2 : applyMaxSizeOverride env (applyPathOverrides env homeDir cfg1) with
    | error e =>
      rw [h2] at h
      exact absurd h (by simp)
    | ok cfg2 =>
      rw [h2] at h
      dsimp only at h
      split at h
      · exact absurd h (by simp)
      · injection h with h
        subst h
        rw [applyMaxSizeOverride_bindAddress _ _ _ h2,
          applyPathOverrides_bindAddress,
          applyPortOverride_bindAddress _ _ _ h1]
        rfl

/-- C7: every configuration `Load` returns binds to the loopback literal
`127.0.0.1` — no environment can change it — and `validateConfig` only
accepts a loopback bind address (`127.0.0.1` or `localhost`). -/
theorem load_bindAddress_loopback :
    (∀ env homeDir cfg, Load env homeDir = .ok cfg →
        cfg.bindAddress = "127.0.0.1")
    ∧ ∀ cfg, validateConfig cfg = .ok () →
        cfg.bindAddress = "127.0.0.1" ∨ cfg.bindAddress = "localhost" :=
  ⟨Load_ok_bindAddress, validateConfig_ok_bindAddress⟩

/-- C7 witness: loading with an empty environment succeeds and yields the
loopback bind address; the default configuration passes validation with a
loopback address. -/
theorem load_bindAddress_loopback_witness :
    (∃ cfg, Load (fun _ => "") "/home/u" = .ok cfg
      ∧ cfg.bindAddress = "127.0.0.1")
    ∧ ((defaultConfig "/home/u").bindAddress = "127.0.0.1"
      ∨ (defaultConfig "/home/u").bindAddress = "localhost") := by
  have hload : Load (fun _ => "") "/home/u" = .ok (defaultConfig "/home/u") := by
    rfl
  have hval : validateConfig (defaultConfig "/home/u") = .ok () := by
    rfl
  exact ⟨⟨defaultConfig "/home/u", hload,
      load_bindAddress_loopback.1 _ _ _ hload⟩,
    load_bindAddress_loopback.2 _ hval⟩

/-- C2: a connection whose first read hits end-of-stream with zero bytes
is logged at INFO only (two INFO entries, no WARNING or ERROR), the
clipboard sink is never invoked and the last-activity file is not
updated. -/
theorem handleConnection_control_conn (M : Int)
    (attemptErr : Nat → Option String) (activityErr : Option String)
    (conn : Conn) (hp : conn.payload = []) :
    (handleConnection M attemptErr activityErr conn).log
        = [.info (.newConnection conn.addr), .info (.controlConnection conn.addr)]
    ∧ (∀ e ∈ (handleConnection M attemptErr activityErr conn).log,
        e.isInfo = true)
    ∧ (handleConnection M attemptErr activityErr conn).sink = none
    ∧ (handleConnection M attemptErr activityErr conn).activity = none := by
  refine ⟨by simp [handleConnection, hp], ?_, by simp [handleConnection, hp],
    by simp [handleConnection, hp]⟩
  intro e he
  simp [handleConnection, hp] at he
  rcases he with h | h <;> subst h <;> rfl

/-- C2 witness: a concrete zero-byte connection. -/
theorem handleConnection_control_conn_witness :
    (handleConnection 1024 (fun _ => none) none ⟨"a", [], none, none⟩).log
        = [.info (.newConnection "a"), .info (.controlConnection "a")]
    ∧ (handleConnection 1024 (fun _ => none) none ⟨"a", [], none, none⟩).sink
        = none :=
  ⟨(handleConnection_control_conn 1024 (fun _ => none) none
      ⟨"a", [], none, none⟩ rfl).1,
    (handleConnection_control_conn 1024 (fun _ => none) none
      ⟨"a", [], none, none⟩ rfl).2.2.1⟩

lemma clipGo_warn_shape (f : Nat → Option String) :
    ∀ fuel attempt lastErr m,
      ClipEvent.warn m ∈ (clipGo f fuel attempt lastErr).1 →
      (∃ a t, m = Msg.retryingClipboard a t) ∨ ∃ e, m = Msg.clipboardOpFailed e
  | 0, _, _, m => by simp [clipGo]
  | fuel + 1, attempt, lastErr, m => by
    intro hm
    rw [clipGo] at hm
    cases hf : f attempt with
    | some e =>
      rw [hf] at hm
      dsimp only at hm
      rcases List.mem_append.mp hm with h1 | h2
      · rcases List.mem_append.mp h1 with hpre | hop
        · by_cases ha : attempt > 0
          · rw [if_pos ha] at hpre
            simp at hpre
            exact .inl ⟨_, _, hpre⟩
          · rw [if_neg ha] at hpre
            simp at hpre
        · simp at hop
          exact .inr ⟨e, hop⟩
      · exact clipGo_warn_shape f fuel (attempt + 1) (some e) m h2
    | none =>
      rw [hf] at hm
      dsimp only at hm
      by_cases ha : attempt > 0
      · rw [if_pos ha] at hm
        simp at hm
        exact .inl ⟨_, _, hm⟩
      · rw [if_neg ha] at hm
        simp at hm

lemma copyToClipboard_warn_shape (f : Nat → Option String) (m : Msg)
    (hm : ClipEvent.warn m ∈ (copyToClipboard f).1) :
    (∃ a t, m = Msg.retryingClipboard a t) ∨ ∃ e, m = Msg.clipboardOpFailed e :=
  clipGo_warn_shape f maxRetries 0 none m hm

/-- C10: a connection classified as a data connection (first read returned
a byte without error) can never reach the "Received empty data" warning:
the accumulated payload always contains at least the first byte. -/
theorem handleConnection_no_empty_warning (M : Int)
    (attemptErr : Nat → Option String) (activityErr : Option String)
    (conn : Conn) (hp : conn.payload ≠ []) (hfe : conn.firstReadErr = none) :
    LogEntry.warning .emptyData
      ∉ (handleConnection M attemptErr activityErr conn).log := by
  cases hpl : conn.payload with
  | nil => exact absurd hpl hp
  | cons b rest =>
    intro hmem
    cases hce : conn.copyErr with
    | some e => simp [handleConnection, hpl, hfe, hce] at hmem
    | none =>
      have hclip : ∀ hmem₂ : LogEntry.warning Msg.emptyData
          ∈ (copyToClipboard attemptErr).1.filterMap ClipEvent.toLog?, False := by
        intro hmem₂
        obtain ⟨a, ha, hlog⟩ := List.mem_filterMap.mp hmem₂
        cases a with
        | warn m =>
          simp only [ClipEvent.toLog?, Option.some.injEq] at hlog
          have : m = Msg.emptyData := by injection hlog
          subst this
          rcases copyToClipboard_warn_shape attemptErr _ ha with ⟨_, _, h⟩ | ⟨_, h⟩ <;>
            exact absurd h (by simp)
        | sleepMs ms => simp [ClipEvent.toLog?] at hlog
      have hne : ¬(b :: rest.take (M - 1).toNat).length = 0 := by simp
      have htrunc : ∀ htm : LogEntry.warning Msg.emptyData
          ∈ (if ((b :: rest.take (M - 1).toNat).length : Int) ≥ M then
              [LogEntry.warning (Msg.exceededMax M)]
            else []), False := by
        intro htm
        rcases Decidable.em (((b :: rest.take (M - 1).toNat).length : Int) ≥ M)
          with hge | hge
        · rw [if_pos hge] at htm
          simp at htm
        · rw [if_neg hge] at htm
          simp at htm
      cases hc : (copyToClipboard attemptErr).2 with
      | some aggErr =>
        simp only [handleConnection, hpl, hfe, hce, hc, if_neg hne] at hmem
        rcases List.mem_append.mp hmem with h | h
        · rcases List.mem_append.mp h with h | h
          · rcases List.mem_append.mp h with h | h
            · simp at h
            · exact htrunc h
          · exact hclip h
        · simp at h
      | none =>
        simp only [handleConnection, hpl, hfe, hce, hc, if_neg hne] at hmem
        rcases List.mem_append.mp hmem with h | h
        · rcases List.mem_append.mp h with h | h
          · rcases List.mem_append.mp h with h | h
            · rcases List.mem_append.mp h with h | h
              · simp at h
              · exact htrunc h
            · exact hclip h
          · cases ha : activityErr <;> rw [ha] at h <;> simp at h
        · simp at h

/-- C10 witness: a concrete one-byte data connection. -/
theorem handleConnection_no_empty_warning_witness :
    LogEntry.warning .emptyData
      ∉ (handleConnection 1024 (fun _ => none) none
          ⟨"a", [7], none, none⟩).log :=
  handleConnection_no_empty_warning 1024 (fun _ => none) none
    ⟨"a", [7], none, none⟩ (by decide) rfl

lemma handleConnection_data_sink (M : Int) (attemptErr : Nat → Option String)
    (activityErr : Option String) (addr : String) (b : Nat) (rest : List Nat) :
    (handleConnection M attemptErr activityErr
        ⟨addr, b :: rest, none, none⟩).sink
      = some (b :: rest.take (M - 1).toNat) := by
  cases hc : (copyToClipboard attemptErr).2 with
  | some aggErr => simp [handleConnection, hc]
  | none => cases ha : activityErr <;> simp [handleConnection, hc, ha]

lemma handleConnection_trunc_warning (M : Int)
    (attemptErr : Nat → Option String) (activityErr : Option String)
    (addr : String) (b : Nat) (rest : List Nat)
    (h : ((b :: rest.take (M - 1).toNat).length : Int) ≥ M) :
    LogEntry.warning (.exceededMax M)
      ∈ (handleConnection M attemptErr activityErr
          ⟨addr, b :: rest, none, none⟩).log := by
  have harith : M ≤ ((M.toNat - 1 : Nat) : Int) ⊓ (rest.length : Int) + 1 := by
    simp only [List.length_cons, List.length_take] at h
    push_cast at h ⊢
    omega
  cases hc : (copyToClipboard attemptErr).2 with
  | some aggErr =>
    simp [handleConnection, hc, h]
    exact Or.inl harith
  | none =>
    cases ha : activityErr <;>
      · simp [handleConnection, hc, ha, h]
        exact Or.inl harith

/-- C1: on a clean data connection, a payload shorter than the configured
maximum reaches the clipboard sink unmodified; a payload of at least the
maximum is cut to exactly `MaxDataSize` bytes and a truncation warning is
logged. -/
theorem handleConnection_size_cap (M : Int) (attemptErr : Nat → Option String)
    (activityErr : Option String) (conn : Conn)
    (hM : 1 ≤ M) (hfe : conn.firstReadErr = none) (hce : conn.copyErr = none)
    (hp : conn.payload ≠ []) :
    (((conn.payload.length : Int) < M →
      (handleConnection M attemptErr activityErr conn).sink
        = some conn.payload))
    ∧ ((conn.payload.length : Int) ≥ M →
      (handleConnection M attemptErr activityErr conn).sink
          = some (conn.payload.take M.toNat)
      ∧ (conn.payload.take M.toNat).length = M.toNat
      ∧ LogEntry.warning (.exceededMax M)
          ∈ (handleConnection M attemptErr activityErr conn).log) := by
  obtain ⟨addr, payload, fre, ce⟩ := conn
  dsimp only at hfe hce hp ⊢
  subst hfe
  subst hce
  cases payload with
  | nil => exact absurd rfl hp
  | cons b rest =>
    constructor
    · intro hlt
      have htake : rest.take (M - 1).toNat = rest := by
        apply List.take_of_length_le
        simp only [List.length_cons] at hlt
        omega
      rw [handleConnection_data_sink, htake]
    · intro hge
      simp only [List.length_cons] at hge
      have hM1 : M.toNat = (M - 1).toNat + 1 := by omega
      have htake : (b :: rest).take M.toNat = b :: rest.take (M - 1).toNat := by
        rw [hM1, List.take_succ_cons]
      have hlen : ((b :: rest).take M.toNat).length = M.toNat := by
        rw [List.length_take]
        simp only [List.length_cons]
        omega
      refine ⟨?_, hlen, ?_⟩
      · rw [handleConnection_data_sink, htake]
      · apply handleConnection_trunc_warning
        rw [← htake, hlen]
        omega

/-- C1 witness: with max size 2 a 3-byte payload is cut to its first two
bytes and the truncation warning appears; with max size 1024 a 1-byte
payload reaches the sink unmodified. -/
theorem handleConnection_size_cap_witness :
    (handleConnection 2 (fun _ => none) none
        ⟨"a", [7, 8, 9], none, none⟩).sink = some [7, 8]
    ∧ LogEntry.warning (.exceededMax 2)
        ∈ (handleConnection 2 (fun _ => none) none
            ⟨"a", [7, 8, 9], none, none⟩).log
    ∧ (handleConnection 1024 (fun _ => none) none
        ⟨"a", [7], none, none⟩).sink = some [7] := by
  have h₁ := (handleConnection_size_cap 2 (fun _ => none) none
    ⟨"a", [7, 8, 9], none, none⟩ (by decide) rfl rfl (by decide)).2
    (by decide)
  have h₂ := (handleConnection_size_cap 1024 (fun _ => none) none
    ⟨"a", [7], none, none⟩ (by decide) rfl rfl (by decide)).1
    (by decide)
  exact ⟨h₁.1, h₁.2.2, h₂⟩

/-- Does an observable clipboard event carry the number `n` among the
numeric format arguments of its log message? -/
def mentionsNum (n : Nat) : ClipEvent → Bool
  | .warn m => m.nums.contains n
  | .sleepMs _ => false

/-- C4 counterexample: with a sink failing on every attempt, the first
attempt fails, yet no WARNING emitted by `copyToClipboard` carries the
number 1 among its format arguments — the per-failure WARNING
("Clipboard operation failed: ...") has no attempt-number slot, so the
claim "each failed attempt is logged at WARNING with the attempt number"
is false at this input. -/
theorem copyToClipboard_cex :
    ClipEvent.warn (.clipboardOpFailed "x")
        ∈ (copyToClipboard (fun _ => some "x")).1
    ∧ (copyToClipboard (fun _ => some "x")).1.all
        (fun ev => !(mentionsNum 1 ev)) = true := by
  decide

/-- C4 (amended): `copyToClipboard` makes at most 3 attempts (its result
depends only on the first three attempt outcomes); it returns nil
immediately on a successful attempt; before each retry it logs a WARNING
naming the upcoming attempt number and sleeps retry-index × 100 ms; each
failed attempt is logged at WARNING naming the underlying failure (without
its own attempt number); exhausting all attempts returns a single
aggregated error carrying the attempt count 3 and the last underlying
failure. -/
theorem copyToClipboard_retry_spec (attemptErr : Nat → Option String) :
    (∀ g : Nat → Option String, (∀ i, i < 3 → attemptErr i = g i) →
      copyToClipboard attemptErr = copyToClipboard g)
    ∧ (attemptErr 0 = none → copyToClipboard attemptErr = ([], none))
    ∧ (∀ e₀, attemptErr 0 = some e₀ → attemptErr 1 = none →
        copyToClipboard attemptErr =
          ([.warn (.clipboardOpFailed e₀), .warn (.retryingClipboard 2 3),
            .sleepMs 100], none))
    ∧ (∀ e₀ e₁, attemptErr 0 = some e₀ → attemptErr 1 = some e₁ →
        attemptErr 2 = none →
        copyToClipboard attemptErr =
          ([.warn (.clipboardOpFailed e₀), .warn (.retryingClipboard 2 3),
            .sleepMs 100, .warn (.clipboardOpFailed e₁),
            .warn (.retryingClipboard 3 3), .sleepMs 200], none))
    ∧ (∀ e₀ e₁ e₂, attemptErr 0 = some e₀ → attemptErr 1 = some e₁ →
        attemptErr 2 = some e₂ →
        copyToClipboard attemptErr =
          ([.warn (.clipboardOpFailed e₀), .warn (.retryingClipboard 2 3),
            .sleepMs 100, .warn (.clipboardOpFailed e₁),
            .warn (.retryingClipboard 3 3), .sleepMs 200,
            .warn (.clipboardOpFailed e₂)], some ⟨3, some e₂⟩)) := by
  refine ⟨?_, ?_, ?_, ?_, ?_⟩
  · intro g hg
    have h0 := hg 0 (by omega)
    have h1 := hg 1 (by omega)
    have h2 := hg 2 (by omega)
    simp [copyToClipboard, maxRetries, clipGo, h0, h1, h2]
  · intro h0
    simp [copyToClipboard, maxRetries, clipGo, h0]
  · intro e₀ h0 h1
    simp [copyToClipboard, maxRetries, clipGo, h0, h1]
  · intro e₀ e₁ h0 h1 h2
    simp [copyToClipboard, maxRetries, clipGo, h0, h1, h2]
  · intro e₀ e₁ e₂ h0 h1 h2
    simp [copyToClipboard, maxRetries, clipGo, h0, h1, h2]

/-- C4 witness: the amended theorem applied to an always-failing sink and
to an immediately-succeeding sink. -/
theorem copyToClipboard_retry_spec_witness :
    copyToClipboard (fun _ => some "x") =
      ([.warn (.clipboardOpFailed "x"), .warn (.retryingClipboard 2 3),
        .sleepMs 100, .warn (.clipboardOpFailed "x"),
        .warn (.retryingClipboard 3 3), .sleepMs 200,
        .warn (.clipboardOpFailed "x")], some ⟨3, some "x"⟩)
    ∧ copyToClipboard (fun _ => none) = ([], none) :=
  ⟨(copyToClipboard_retry_spec (fun _ => some "x")).2.2.2.2 "x" "x" "x"
      rfl rfl rfl,
    (copyToClipboard_retry_spec (fun _ => none)).2.1 rfl⟩

lemma rotateHandle_broken (maxFileSize : Nat) (ts : String) (h : Handle)
    (archived : List (String × String)) :
    ((rotateHandle maxFileSize ts h archived).1).broken = h.broken := by
  unfold rotateHandle
  split
  · next hcond => simp [hcond.1]
  · rfl

lemma checkRotation_logFile (l : FileLogger) (ts : String) (h : Handle)
    (hl : l.logFile = some h) :
    ∃ h₂, (l.checkRotation ts).logFile = some h₂ ∧ h₂.broken = h.broken := by
  refine ⟨(rotateHandle l.maxFileSize ts h l.archived).1, ?_,
    rotateHandle_broken _ _ _ _⟩
  unfold FileLogger.checkRotation
  rw [hl]
  dsimp only
  cases hd : l.debugFile <;> simp [hd]

lemma checkRotation_debugFile (l : FileLogger) (ts : String) (h : Handle)
    (hd : l.debugFile = some h) :
    ∃ h₂, (l.checkRotation ts).debugFile = some h₂
      ∧ h₂.broken = h.broken := by
  unfold FileLogger.checkRotation
  cases hl : l.logFile with
  | none =>
    dsimp only
    rw [hd]
    dsimp only
    exact ⟨_, rfl, rotateHandle_broken _ _ _ _⟩
  | some hm =>
    dsimp only
    rw [hd]
    dsimp only
    exact ⟨_, rfl, rotateHandle_broken _ _ _ _⟩

/-- C6: with both files open and healthy, a DEBUG message is written only
to the debug file (never the main file); INFO, WARNING and ERROR messages
are written to the main file and never the debug file; an ERROR message is
additionally duplicated to the standard error stream. -/
theorem log_level_routing (l : FileLogger) (hm hd : Handle)
    (hlm : l.logFile = some hm) (hld : l.debugFile = some hd)
    (hbm : hm.broken = false) (hbd : hd.broken = false)
    (level : LogLevel) (message ts : String) :
    ∃ l₂ line,
      l.log level message ts = some (l₂,
        match level with
        | .DEBUG => [(Dest.debug, line)]
        | .ERROR => [(Dest.main, line), (Dest.stdErr, line)]
        | _ => [(Dest.main, line)]) := by
  obtain ⟨hm₂, hrm, hbm₂⟩ := checkRotation_logFile l ts hm hlm
  obtain ⟨hd₂, hrd, hbd₂⟩ := checkRotation_debugFile l ts hd hld
  rw [hbm] at hbm₂
  rw [hbd] at hbd₂
  cases level with
  | DEBUG =>
    exact ⟨_, _, by
      simp [FileLogger.log, FileLogger.ensureLogFilesExist, hlm, hld, hrd,
        hbd₂, Handle.writeString]
      exact ⟨rfl, rfl⟩⟩
  | INFO =>
    exact ⟨_, _, by
      simp [FileLogger.log, FileLogger.ensureLogFilesExist, hlm, hld, hrm,
        hbm₂, Handle.writeString]
      exact ⟨rfl, rfl⟩⟩
  | WARNING =>
    exact ⟨_, _, by
      simp [FileLogger.log, FileLogger.ensureLogFilesExist, hlm, hld, hrm,
        hbm₂, Handle.writeString]
      exact ⟨rfl, rfl⟩⟩
  | ERROR =>
    exact ⟨_, _, by
      simp [FileLogger.log, FileLogger.ensureLogFilesExist, hlm, hld, hrm,
        hbm₂, Handle.writeString]
      exact ⟨rfl, rfl⟩⟩

/-- C6 witness: a concrete healthy logger routes an INFO message to the
main file only. -/
theorem log_level_routing_witness :
    ∃ l₂ line,
      (FileLogger.mk (some ⟨"m", "", false⟩) (some ⟨"d", "", false⟩)
          10485760 []).log .INFO "hello" "ts" = some (l₂, [(Dest.main, line)]) :=
  log_level_routing
    ⟨some ⟨"m", "", false⟩, some ⟨"d", "", false⟩, 10485760, []⟩
    ⟨"m", "", false⟩ ⟨"d", "", false⟩ rfl rfl rfl rfl .INFO "hello" "ts"

end Warpclip
